import Mathlib

/-!
Verification of the search-term classification and query-construction logic of
`AMOModelAdmin` (src/olympia/amo/admin.py).

The admin code is shallowly embedded: Python strings become `List Char`,
the Python `ipaddress` parsing primitives it calls become executable Lean
parsers returning `Option`/`Except`, exceptions become `Except PyErr`, and the
Django ORM queryset operations become an explicit syntax tree (`QOp`, `QExpr`)
with an evaluation semantics for the IP-log predicates.

String predicates such as `str.isdigit` are modelled over ASCII (the admin
search strings of interest are ASCII; Python's Unicode digit classes are out
of scope of the claims).
-/

/-- Python exception kinds relevant to `ip_addresses_and_networks_from_query`:
`ipaddress.ip_address` / `ip_network` raise `ValueError` on a malformed
string, `ipaddress.summarize_address_range` raises `ValueError` (reversed
range) or `TypeError` (mixed versions / wrong arguments). -/
inductive PyErr where
  | valueError
  | typeError
deriving DecidableEq

/-- Characters of a string literal, the representation of Python `str`. -/
def pystr (s : String) : List Char := s.data

/-- Python `str.split()` whitespace (ASCII part). -/
def pyIsSpace (c : Char) : Bool :=
  c = ' ' || c = '\t' || c = '\n' || c = '\r' || c = '\x0b' || c = '\x0c'

/-- Python `str.isdigit` (ASCII): non-empty and all decimal digits. -/
def pyIsdigit (t : List Char) : Bool :=
  !t.isEmpty && t.all Char.isDigit

/-- Python `str.isnumeric` (ASCII): coincides with `str.isdigit` on ASCII. -/
def pyIsnumeric (t : List Char) : Bool :=
  !t.isEmpty && t.all Char.isDigit

/-- Helper for `pySplitChar`, accumulating the current piece in reverse. -/
def pySplitCharAux (sep : Char) : List Char → List Char → List (List Char)
  | [], acc => [acc.reverse]
  | c :: rest, acc =>
    if c = sep then acc.reverse :: pySplitCharAux sep rest []
    else pySplitCharAux sep rest (c :: acc)

/-- Python `str.split(sep)` for a one-character separator: keeps empty
pieces, `"".split(sep) == ['']`. -/
def pySplitChar (sep : Char) (s : List Char) : List (List Char) :=
  pySplitCharAux sep s []

/-- Helper for `pySplitWs`. -/
def pySplitWsAux : List Char → List Char → List (List Char)
  | [], acc => if acc.isEmpty then [] else [acc.reverse]
  | c :: rest, acc =>
    if pyIsSpace c then
      if acc.isEmpty then pySplitWsAux rest []
      else acc.reverse :: pySplitWsAux rest []
    else pySplitWsAux rest (c :: acc)

/-- Python `str.split(None)`: split on whitespace runs, dropping empty
pieces (so `"".split() == []` and `"  ".split() == []`). -/
def pySplitWs (s : List Char) : List (List Char) :=
  pySplitWsAux s []

/-- Python `str.strip()` (ASCII whitespace). -/
def pyStrip (s : List Char) : List Char :=
  ((s.dropWhile pyIsSpace).reverse.dropWhile pyIsSpace).reverse

/-- Python `str.count(c)` for a single character. -/
def pyCountChar (s : List Char) (c : Char) : Nat :=
  (s.filter (fun d => d = c)).length

/-- Python `str.replace(old, new)` for one-character arguments. -/
def pyReplaceChar (s : List Char) (old new : Char) : List Char :=
  s.map (fun c => if c = old then new else c)

/-- Decimal value of a digit string. -/
def decVal (s : List Char) : Nat :=
  s.foldl (fun n c => 10 * n + (c.toNat - 48)) 0

/-- Hexadecimal digit test, as in `ipaddress._HEX_DIGITS`. -/
def isHexDigitCh (c : Char) : Bool :=
  c.isDigit || ('a' ≤ c && c ≤ 'f') || ('A' ≤ c && c ≤ 'F')

/-- Value of one hexadecimal digit. -/
def hexDigitVal (c : Char) : Nat :=
  if c.isDigit then c.toNat - 48
  else if 'a' ≤ c && c ≤ 'f' then c.toNat - 87
  else c.toNat - 55

/-- Hexadecimal value of a hex-digit string. -/
def hexVal (s : List Char) : Nat :=
  s.foldl (fun n c => 16 * n + hexDigitVal c) 0

/-- `IPv4Address._parse_octet`: ASCII digits only, at most 3 characters, no
leading zero (except "0" itself), value at most 255. -/
def parseOctet (s : List Char) : Option Nat :=
  if s.isEmpty then none
  else if !s.all Char.isDigit then none
  else if s.length > 3 then none
  else if s.head? = some '0' && s.length > 1 then none
  else
    let v := decVal s
    if v ≤ 255 then some v else none

/-- `IPv4Address._ip_int_from_string`: exactly four dot-separated octets. -/
def parseIPv4int (s : List Char) : Option Nat :=
  let octets := pySplitChar '.' s
  if octets.length = 4 then
    (octets.mapM parseOctet).map (fun l => l.foldl (fun a v => 256 * a + v) 0)
  else none

/-- A hextet position in `IPv6Address._ip_int_from_string` after the optional
IPv4 suffix has been converted: either still a raw string, or an already
computed 16-bit value. -/
inductive HexPart where
  | raw (s : List Char)
  | val (v : Nat)
deriving DecidableEq

/-- `IPv6Address._parse_hextet`: only hex digits, at most 4 characters,
non-empty (`int('', 16)` raises `ValueError`). -/
def parseHextet (s : List Char) : Option Nat :=
  if !s.all isHexDigitCh then none
  else if s.length > 4 then none
  else if s.isEmpty then none
  else some (hexVal s)

/-- Value of one `HexPart`. -/
def parseHexPart : HexPart → Option Nat
  | .raw s => parseHextet s
  | .val v => some v

/-- Whether a `HexPart` is an empty string (a `::` marker in the split). -/
def hexPartIsEmpty : HexPart → Bool
  | .raw s => s.isEmpty
  | .val _ => false

/-- Fold 16-bit pieces into one integer, as the shifts in
`_ip_int_from_string` do. -/
def foldHextets (l : List Nat) : Nat :=
  l.foldl (fun a v => 65536 * a + v) 0

/-- `IPv6Address._ip_int_from_string` after the `::`-bookkeeping: `hi` leading
parts, `skipped` zero hextets, `lo` trailing parts. -/
def assembleIPv6 (parts : List HexPart) (hi lo skipped : Nat) : Option Nat := do
  let his ← (parts.take hi).mapM parseHexPart
  let los ← (parts.drop (parts.length - lo)).mapM parseHexPart
  pure (foldHextets (his ++ List.replicate skipped 0 ++ los))

/-- `IPv6Address._ip_int_from_string`: colon-separated hextets with at most
one `::`, optional dotted-quad suffix, exactly eight hextets once the
skipped run is accounted for. -/
def parseIPv6int (s : List Char) : Option Nat :=
  if s.isEmpty then none
  else
    let parts0 := pySplitChar ':' s
    if parts0.length < 3 then none
    else
      let withV4 : Option (List HexPart) :=
        match parts0.getLast? with
        | some lp =>
          if lp.contains '.' then
            match parseIPv4int lp with
            | none => none
            | some v4 =>
              some ((parts0.dropLast).map HexPart.raw ++
                [HexPart.val (v4 / 65536), HexPart.val (v4 % 65536)])
          else some (parts0.map HexPart.raw)
        | none => none
      match withV4 with
      | none => none
      | some parts =>
        if parts.length > 9 then none
        else
          let interior := (parts.drop 1).dropLast
          let empties := (interior.filter hexPartIsEmpty).length
          if empties ≥ 2 then none
          else if empties = 1 then
            match interior.findIdx? (fun p => hexPartIsEmpty p) with
            | none => none
            | some i =>
              let skipIdx := i + 1
              let hi0 := skipIdx
              let lo0 := parts.length - skipIdx - 1
              match parts.head? with
              | none => none
              | some p0 =>
                let hiOk := if hexPartIsEmpty p0 then hi0 - 1 = 0 else true
                let hi := if hexPartIsEmpty p0 then 0 else hi0
                match parts.getLast? with
                | none => none
                | some pl =>
                  let loOk := if hexPartIsEmpty pl then lo0 - 1 = 0 else true
                  let lo := if hexPartIsEmpty pl then 0 else lo0
                  if hiOk && loOk && hi + lo < 8 then
                    assembleIPv6 parts hi lo (8 - (hi + lo))
                  else none
          else
            if parts.length = 8 then
              match parts.head?, parts.getLast? with
              | some p0, some pl =>
                if hexPartIsEmpty p0 || hexPartIsEmpty pl then none
                else assembleIPv6 parts 8 0 0
              | _, _ => none
            else none

/-- `IPv6Address._split_scope_id` plus `_ip_int_from_string`: an optional
`%scope` suffix (non-empty, no further `%`) after the address text. -/
def parseIPv6addr (s : List Char) : Option (Nat × Option (List Char)) :=
  if s.contains '%' then
    let addr := s.takeWhile (fun c => c ≠ '%')
    let scope := (s.dropWhile (fun c => c ≠ '%')).drop 1
    if scope.isEmpty || scope.contains '%' then none
    else (parseIPv6int addr).map (fun v => (v, some scope))
  else (parseIPv6int s).map (fun v => (v, none))

/-- An `ipaddress.IPv4Address` or `IPv6Address` value (the integer `_ip`,
plus the scope id for IPv6). -/
inductive Addr where
  | v4 (ip : Nat)
  | v6 (ip : Nat) (scope : Option (List Char))
deriving DecidableEq

/-- `ipaddress.ip_address(str)`: try IPv4, then IPv6. -/
def ipAddressOpt (s : List Char) : Option Addr :=
  match parseIPv4int s with
  | some v => some (.v4 v)
  | none => (parseIPv6addr s).map (fun p => .v6 p.1 p.2)

/-- `ipaddress.ip_address` with its raising behaviour: a parse failure is a
`ValueError`. -/
def ip_address (s : List Char) : Except PyErr Addr :=
  match ipAddressOpt s with
  | some a => .ok a
  | none => .error .valueError

/-- An `ipaddress.IPv4Network` or `IPv6Network`: version flag, network
address (an integer) and prefix length. -/
structure IPNet where
  isV6 : Bool
  base : Nat
  plen : Nat
deriving DecidableEq

/-- Bit width of a network's address family. -/
def IPNet.bits (n : IPNet) : Nat := if n.isV6 then 128 else 32

/-- `network[0]`: the network address, as an `Addr`. -/
def netFirst (n : IPNet) : Addr :=
  if n.isV6 then .v6 n.base none else .v4 n.base

/-- `network[-1]`: the last address of the network, as an `Addr`. -/
def netLast (n : IPNet) : Addr :=
  if n.isV6 then .v6 (n.base + 2 ^ (128 - n.plen) - 1) none
  else .v4 (n.base + 2 ^ (32 - n.plen) - 1)

/-- Fuelled count of trailing zero bits (the fuel exceeds the bit width at
every call site, so it never runs out on in-range inputs). -/
def ctzF : Nat → Nat → Nat
  | 0, _ => 0
  | f + 1, n => if n % 2 = 0 then ctzF f (n / 2) + 1 else 0

/-- `ipaddress._count_righthand_zero_bits(number, bits)`. -/
def countRighthandZeroBits (number bits : Nat) : Nat :=
  if number = 0 then bits else min bits (ctzF bits number)

/-- Fuelled `int.bit_length` (fuel 200 exceeds any 128-bit value). -/
def bitLengthF : Nat → Nat → Nat
  | 0, _ => 0
  | f + 1, n => if n = 0 then 0 else bitLengthF f (n / 2) + 1

/-- Python `int.bit_length()`. -/
def bitLength (n : Nat) : Nat := bitLengthF 200 n

/-- `ipaddress._prefix_from_ip_int`: derive a prefix length from a netmask
integer, requiring the leading bits to be all ones. -/
def prefixFromIpInt (bits v : Nat) : Option Nat :=
  let tz := countRighthandZeroBits v bits
  let p := bits - tz
  if v / 2 ^ tz = 2 ^ p - 1 then some p else none

/-- `ipaddress._prefix_from_ip_string`: parse the mask text as an address,
then try it as a netmask and, failing that, as a hostmask. -/
def prefixFromIpString (bits : Nat) (ipParse : List Char → Option Nat)
    (m : List Char) : Option Nat :=
  match ipParse m with
  | none => none
  | some v =>
    match prefixFromIpInt bits v with
    | some p => some p
    | none => prefixFromIpInt bits (2 ^ bits - 1 - v)

/-- `_make_netmask` for a mask given as text: decimal prefix length first,
then netmask/hostmask notation. -/
def parseMask (bits : Nat) (ipParse : List Char → Option Nat)
    (m : List Char) : Option Nat :=
  if !m.isEmpty && m.all Char.isDigit then
    let p := decVal m
    if p ≤ bits then some p else prefixFromIpString bits ipParse m
  else prefixFromIpString bits ipParse m

/-- `IPv4Network(term, strict=True)`: optional `/mask` suffix (at most one
slash), and the host bits must be zero. -/
def parseIPv4Network (s : List Char) : Option IPNet :=
  let addr := pySplitChar '/' s
  match addr with
  | [a] => (parseIPv4int a).map (fun v => ⟨false, v, 32⟩)
  | [a, m] => do
    let v ← parseIPv4int a
    let p ← parseMask 32 parseIPv4int m
    if v % 2 ^ (32 - p) = 0 then some ⟨false, v, p⟩ else none
  | _ => none

/-- `IPv6Network(term, strict=True)`: as for IPv4; scope ids are not
accepted in the network form. -/
def parseIPv6Network (s : List Char) : Option IPNet :=
  let addr := pySplitChar '/' s
  match addr with
  | [a] => (parseIPv6int a).map (fun v => ⟨true, v, 128⟩)
  | [a, m] => do
    let v ← parseIPv6int a
    let p ← parseMask 128 parseIPv6int m
    if v % 2 ^ (128 - p) = 0 then some ⟨true, v, p⟩ else none
  | _ => none

/-- `ipaddress.ip_network(str)`: try IPv4, then IPv6. -/
def ipNetworkOpt (s : List Char) : Option IPNet :=
  match parseIPv4Network s with
  | some n => some n
  | none => parseIPv6Network s

/-- `ipaddress.ip_network` with its raising behaviour: a parse failure (or a
strictness violation) is a `ValueError`. -/
def ip_network (s : List Char) : Except PyErr IPNet :=
  match ipNetworkOpt s with
  | some n => .ok n
  | none => .error .valueError

/-- The loop of `ipaddress.summarize_address_range`: emit the largest
aligned block that starts at `first` and fits below `last`, then continue
after it. Fuelled; the fuel at the call site (`2 * bits + 2`) exceeds the
size of any minimal CIDR cover, so it never runs out. -/
def summarizeLoop (bits : Nat) (v6 : Bool) : Nat → Nat → Nat → List IPNet
  | 0, _, _ => []
  | fuel + 1, first, last =>
    if first ≤ last then
      let nbits := min (countRighthandZeroBits first bits)
        (bitLength (last - first + 1) - 1)
      ⟨v6, first, bits - nbits⟩ ::
        summarizeLoop bits v6 fuel (first + 2 ^ nbits) last
    else []

/-- `ipaddress.summarize_address_range(first, last)`: `TypeError` when the
versions differ, `ValueError` when the range is reversed, otherwise the
minimal list of CIDR blocks covering the inclusive range. -/
def summarize_address_range (first last : Addr) : Except PyErr (List IPNet) :=
  match first, last with
  | .v4 f, .v4 l =>
    if l < f then .error .valueError else .ok (summarizeLoop 32 false 66 f l)
  | .v6 f _, .v6 l _ =>
    if l < f then .error .valueError else .ok (summarizeLoop 128 true 258 f l)
  | _, _ => .error .typeError

/-- The result dict of `ip_addresses_and_networks_from_query`:
`{'ips': ips, 'networks': networks}`. -/
structure IpsNets where
  ips : List Addr
  networks : List IPNet
deriving DecidableEq

/-- One term of the range branch:
`summarize_address_range(*(ip_address(i.strip()) for i in term.split('-')))`.
The generator raises `ValueError` on an unparsable endpoint before
`summarize_address_range` runs; a split that does not yield exactly two
pieces would make the call itself raise `TypeError` (wrong arity). -/
def rangeSummarize (t : List Char) : Except PyErr (List IPNet) :=
  match pySplitChar '-' t with
  | [s1, s2] =>
    match ip_address (pyStrip s1) with
    | .error e => .error e
    | .ok a =>
      match ip_address (pyStrip s2) with
      | .error e => .error e
      | .ok b => summarize_address_range a b
  | _ => .error .typeError

/-- The `for term in search_terms` loop of
`ip_addresses_and_networks_from_query`, with the `ips`/`networks`
accumulators. Each `try/except` is modelled by matching on the raised error:
only the caught kinds fall through to the next candidate parse. -/
def ipQueryLoop : List (List Char) → List Addr → List IPNet →
    Except PyErr (Option IpsNets)
  | [], ips, networks => .ok (some ⟨ips, networks⟩)
  | t :: rest, ips, networks =>
    if pyIsdigit t then .ok none
    else
      match ip_address t with
      | .ok a => ipQueryLoop rest (ips ++ [a]) networks
      | .error .typeError => .error .typeError
      | .error .valueError =>
        match ip_network t with
        | .ok n => ipQueryLoop rest ips (networks ++ [n])
        | .error .typeError => .error .typeError
        | .error .valueError =>
          if pyCountChar t '-' = 1 then
            match rangeSummarize t with
            | .ok ns => ipQueryLoop rest ips (networks ++ ns)
            | .error _ => .ok none
          else .ok none

/-- `AMOModelAdmin.ip_addresses_and_networks_from_query(search_term)`:
split on commas and classify every term; `.ok none` is Python `None`
(fall back to text search), an `.error` would be an uncaught exception. -/
def ip_addresses_and_networks_from_query (searchTerm : List Char) :
    Except PyErr (Option IpsNets) :=
  ipQueryLoop (pySplitChar ',' searchTerm) [] []

/-- The classification as its callers see it. The `.error` default is dead
code: `ipQueryLoop_no_exception` proves classification never raises. -/
def classifyQuery (searchTerm : List Char) : Option IpsNets :=
  match ip_addresses_and_networks_from_query searchTerm with
  | .ok v => v
  | .error _ => none

/-- A value appearing on the right-hand side of an ORM lookup. -/
inductive QVal where
  | textVal (v : List Char)
  | addrList (l : List Addr)
  | addrRange (lo hi : Addr)
  | natList (l : List Nat)
deriving DecidableEq

/-- A Django `Q` object: the empty `Q()`, a single `lookup=value` leaf, or
an AND/OR combination. -/
inductive QExpr where
  | empty
  | leaf (lookup : List Char) (v : QVal)
  | qand (a b : QExpr)
  | qor (a b : QExpr)
deriving DecidableEq

/-- `Q.__or__`: an empty operand disappears (`Q._combine` returns a copy of
the other side), otherwise an OR node. -/
def qOrC (a b : QExpr) : QExpr :=
  if a = .empty then b else if b = .empty then a else .qor a b

/-- `Q.__and__`, dually. -/
def qAndC (a b : QExpr) : QExpr :=
  if a = .empty then b else if b = .empty then a else .qand a b

/-- `functools.reduce(op, l)` for a non-empty list (callers guard
emptiness, as the source does). -/
def reduceQ (op : QExpr → QExpr → QExpr) : List QExpr → QExpr
  | [] => .empty
  | x :: xs => xs.foldl op x

/-- The queryset operations `get_search_results` can apply, in order. The
`annotateIps` op is the `activity_ips`/`activity_ips_ids` annotation pair,
carrying the `FilteredRelation` condition when one was attached. -/
inductive QOp where
  | annotateIps (cond : Option QExpr)
  | filterIpsNotNull
  | filterIdIn (field : List Char) (terms : List (List Char))
  | filterQ (q : QExpr)
deriving DecidableEq

/-- Whether a queryset operation filters rows (annotations do not). -/
def QOp.filtersRows : QOp → Bool
  | .annotateIps _ => false
  | _ => true

/-- The `ModelAdmin` configuration that `get_search_results` reads:
`search_by_ip_actions`, `search_by_ip_activity_accessor`, the search
fields, `get_search_id_field(request)`, and
`minimum_search_terms_to_search_by_id`. -/
structure AdminCfg where
  searchByIpActions : List Nat
  accessor : List Char
  searchFields : List (List Char)
  searchIdField : List Char
  minTerms : Nat
  modelName : List Char
deriving DecidableEq

/-- A model field as `_meta.get_field` exposes it: its name, whether it is a
relation (`hasattr(field, 'get_path_info')`), the related model's name, and
whether traversing it can yield several rows per parent (`any(p.m2m ...)` in
Django's `lookup_spawns_duplicates`), plus the lookup names `get_lookup`
accepts on it. -/
structure FieldDef where
  fname : List Char
  isRelation : Bool
  target : List Char
  multiValued : Bool
  lookups : List (List Char)
deriving DecidableEq

/-- A model's `_meta`: primary-key name and fields. -/
structure ModelMeta where
  pkName : List Char
  fields : List FieldDef
deriving DecidableEq

/-- The registry of models reachable from the admin's root model. -/
def Schema := List (List Char × ModelMeta)

/-- Look a model up by name. -/
def getModelMeta (schema : Schema) (n : List Char) : Option ModelMeta :=
  (schema.find? (fun p => p.1 == n)).map (fun p => p.2)

/-- `opts.get_field(name)`; `none` is `FieldDoesNotExist`. -/
def getFieldM (m : ModelMeta) (n : List Char) : Option FieldDef :=
  m.fields.find? (fun f => f.fname == n)

/-- Fallback `_meta` for a model name missing from the schema registry
(cannot happen for a faithfully described schema: Django always resolves
`queryset.model._meta` and relation targets). -/
def defaultMeta : ModelMeta := ⟨pystr "id", []⟩

/-- The `for path_part in lookup_fields` loop of `construct_search`:
substitute `pk`, follow relations, return the spec as-is when a non-field
segment is a valid lookup on the previous field, else fall through. -/
def csWalk (schema : Schema) :
    ModelMeta → Option FieldDef → List Char → List (List Char) → List Char
  | _, _, fieldName, [] => fieldName ++ pystr "__icontains"
  | opts, prevField, fieldName, part :: rest =>
    let part2 := if part == pystr "pk" then opts.pkName else part
    match getFieldM opts part2 with
    | none =>
      match prevField with
      | some pf =>
        if pf.lookups.contains part2 then fieldName
        else csWalk schema opts prevField fieldName rest
      | none => csWalk schema opts prevField fieldName rest
    | some fld =>
      let opts2 :=
        if fld.isRelation then (getModelMeta schema fld.target).getD opts
        else opts
      csWalk schema opts2 (some fld) fieldName rest

/-- Whether the second list starts with the first one. -/
def listStartsWith : List Char → List Char → Bool
  | [], _ => true
  | _ :: _, [] => false
  | a :: as, b :: bs => a = b && listStartsWith as bs

/-- Python `str.split('__')` (the two-character `LOOKUP_SEP`), fuelled by
the string length; each step consumes at least one character so the fuel
never runs out. -/
def splitSepF (sep : List Char) : Nat → List Char → List Char →
    List (List Char)
  | 0, s, acc => [acc.reverse ++ s]
  | _ + 1, [], acc => [acc.reverse]
  | f + 1, c :: rest, acc =>
    if listStartsWith sep (c :: rest) then
      acc.reverse :: splitSepF sep f (List.drop (sep.length - 1) rest) []
    else splitSepF sep f rest (c :: acc)

/-- Python `str.split('__')`. -/
def splitLookupSep (s : List Char) : List (List Char) :=
  splitSepF (pystr "__") (s.length + 1) s []

/-- `construct_search(field_name)` from `get_search_results`: the sigil
prefixes `^`, `=`, `@`, otherwise the relation-following walk. -/
def construct_search (schema : Schema) (rootModel : List Char)
    (fieldName : List Char) : List Char :=
  match fieldName with
  | '^' :: rest => rest ++ pystr "__istartswith"
  | '=' :: rest => rest ++ pystr "__iexact"
  | '@' :: rest => rest ++ pystr "__icontains"
  | _ =>
    let opts0 := (getModelMeta schema rootModel).getD defaultMeta
    csWalk schema opts0 none fieldName (splitLookupSep fieldName)

/-- Django's `admin.utils.lookup_spawns_duplicates(opts, lookup_path)`: walk
the path; a traversed multi-valued relation spawns duplicates. -/
def djangoSpawnsDuplicates (schema : Schema) :
    ModelMeta → List (List Char) → Bool
  | _, [] => false
  | opts, part :: rest =>
    let part2 := if part == pystr "pk" then opts.pkName else part
    match getFieldM opts part2 with
    | none => djangoSpawnsDuplicates schema opts rest
    | some fld =>
      if fld.isRelation then
        if fld.multiValued then true
        else djangoSpawnsDuplicates schema
          ((getModelMeta schema fld.target).getD opts) rest
      else djangoSpawnsDuplicates schema opts rest

/-- `AMOModelAdmin.lookup_spawns_duplicates(opts, lookup_path)`: Django's
answer, forced to `True` when a path segment is one of the translation
fields `localized_string` / `localized_string_clean`. -/
def lookup_spawns_duplicates (schema : Schema) (opts : ModelMeta)
    (lookupPath : List Char) : Bool :=
  let lookupFields := splitLookupSep lookupPath
  djangoSpawnsDuplicates schema opts lookupFields ||
    lookupFields.any (fun p =>
      p == pystr "localized_string" || p == pystr "localized_string_clean")

/-- The `condition` built by `get_queryset_with_related_ips` before the
action restriction: an `__in` test on the literal addresses (when any),
OR-ed with one `__range` test per network. -/
def buildIpCond (cfg : AdminCfg) (x : IpsNets) : QExpr :=
  let c1 :=
    if x.ips ≠ [] then
      qOrC .empty (.leaf (cfg.accessor ++ pystr "__iplog__ip_address_binary__in")
        (.addrList x.ips))
    else .empty
  x.networks.foldl (fun acc n =>
    qOrC acc (.leaf (cfg.accessor ++ pystr "__iplog__ip_address_binary__range")
      (.addrRange (netFirst n) (netLast n)))) c1

/-- The full IP-search condition: the address/network disjunction AND-ed
with `{accessor}__action__in=search_by_ip_actions`. -/
def ipSearchCondition (cfg : AdminCfg) (x : IpsNets) : QExpr :=
  qAndC (buildIpCond cfg x)
    (.leaf (cfg.accessor ++ pystr "__action__in") (.natList cfg.searchByIpActions))

/-- `AMOModelAdmin.get_queryset_with_related_ips`: always annotate; when the
condition is non-empty, attach it to the `FilteredRelation` and filter on
the joined rows being present. Returns the ops and `may_have_duplicates`,
which is always `False` here. -/
def get_queryset_with_related_ips (cfg : AdminCfg) (x : Option IpsNets) :
    List QOp × Bool :=
  let condition := match x with
    | none => QExpr.empty
    | some xx => buildIpCond cfg xx
  if condition ≠ QExpr.empty then
    ([QOp.annotateIps (some (ipSearchCondition cfg
        (match x with | none => ⟨[], []⟩ | some xx => xx))),
      QOp.filterIpsNotNull], false)
  else ([QOp.annotateIps none], false)

/-- The `_meta` of the admin's root model (`queryset.model._meta`, also
`self.opts`). -/
def rootMeta (cfg : AdminCfg) (schema : Schema) : ModelMeta :=
  (getModelMeta schema cfg.modelName).getD defaultMeta

/-- The IP section at the top of `get_search_results`: when
`search_by_ip_actions` is non-empty, classify and annotate; the third
component records whether the early `return` for an IP search fires. -/
def ipSection (cfg : AdminCfg) (searchTerm : List Char) :
    List QOp × Bool × Bool :=
  if cfg.searchByIpActions ≠ [] then
    let ipsNets := classifyQuery searchTerm
    let r := get_queryset_with_related_ips cfg ipsNets
    (r.1, r.2, ipsNets.isSome)
  else ([], false, false)

/-- The search terms `get_search_results` actually iterates: wildcard `*`
rewritten to `%`, then comma-split when the raw text contains a comma,
whitespace-split otherwise. -/
def searchTermsOf (searchTerm : List Char) : List (List Char) :=
  let st := pyReplaceChar searchTerm '*' '%'
  if searchTerm.contains ',' then pySplitChar ',' st else pySplitWs st

/-- `AMOModelAdmin.get_search_results(request, queryset, search_term)`,
returning the operations applied to the queryset and the
`may_have_duplicates` flag. -/
def get_search_results (cfg : AdminCfg) (schema : Schema)
    (searchTerm : List Char) : List QOp × Bool :=
  let sec := ipSection cfg searchTerm
  let ops0 := sec.1
  let mayDup0 := sec.2.1
  if sec.2.2 then (ops0, mayDup0)
  else if !(cfg.searchFields ≠ [] ∧ searchTerm ≠ [] : Bool) then
    (ops0, mayDup0)
  else
    let joinIsOr := searchTerm.contains ','
    let searchTerms := searchTermsOf searchTerm
    if cfg.searchIdField ≠ [] ∧ cfg.minTerms ≤ searchTerms.length ∧
        searchTerms.all pyIsnumeric then
      (ops0 ++ [QOp.filterIdIn cfg.searchIdField searchTerms], mayDup0)
    else
      let ormLookups := cfg.searchFields.map
        (fun f => construct_search schema cfg.modelName f)
      let filters := searchTerms.map (fun bit =>
        reduceQ qOrC (ormLookups.map (fun lk => QExpr.leaf lk (.textVal bit))))
      let mayDup := mayDup0 || ormLookups.any
        (fun lk => lookup_spawns_duplicates schema (rootMeta cfg schema) lk)
      if filters ≠ [] then
        (ops0 ++ [QOp.filterQ (reduceQ (if joinIsOr then qOrC else qAndC)
          filters)], mayDup)
      else (ops0, mayDup)

/-- One joined activity/IP-log row, as the IP-search condition sees it: the
binary address column and the activity's action code. -/
structure IpRow where
  addr : Addr
  action : Nat
deriving DecidableEq

/-- Ordering of the binary address column (within one family the integer
order; across families v4 sorts first — the cross-family case is never
exercised by conditions the code builds). -/
def addrLe : Addr → Addr → Bool
  | .v4 a, .v4 b => a ≤ b
  | .v6 a _, .v6 b _ => a ≤ b
  | .v4 _, .v6 _ _ => true
  | .v6 _ _, .v4 _ => false

/-- Semantics of one lookup leaf on an activity/IP-log row. Django's
`__in` is membership, `__range` is SQL `BETWEEN`, i.e. inclusive on both
ends. Text lookups do not constrain these rows. -/
def evalIpLeaf (row : IpRow) : QVal → Bool
  | .addrList l => l.contains row.addr
  | .addrRange lo hi => addrLe lo row.addr && addrLe row.addr hi
  | .natList l => l.contains row.action
  | .textVal _ => true

/-- Evaluation of a `Q` condition on an activity/IP-log row (`Q()` matches
everything). -/
def evalIpCond (row : IpRow) : QExpr → Bool
  | .empty => true
  | .leaf _ v => evalIpLeaf row v
  | .qand a b => evalIpCond row a && evalIpCond row b
  | .qor a b => evalIpCond row a || evalIpCond row b

/-- Strict version of `addrLe`. -/
def addrLt : Addr → Addr → Bool
  | .v4 a, .v4 b => a < b
  | .v6 a _, .v6 b _ => a < b
  | .v4 _, .v6 _ _ => true
  | .v6 _ _, .v4 _ => false

/-- Modelled from the spec for comparison: the spec describes the per-network
test as "a half-open range test between the network's first and last
address", i.e. `first ≤ addr < last`; identical to `evalIpCond` except on
the range leaf. -/
def evalIpCondSpecHalfOpen (row : IpRow) : QExpr → Bool
  | .empty => true
  | .leaf _ v =>
    match v with
    | .addrRange lo hi => addrLe lo row.addr && addrLt row.addr hi
    | other => evalIpLeaf row other
  | .qand a b => evalIpCondSpecHalfOpen row a && evalIpCondSpecHalfOpen row b
  | .qor a b => evalIpCondSpecHalfOpen row a || evalIpCondSpecHalfOpen row b

/-- Membership of a (v4) integer address in a network, for stating range
coverage. -/
def inNet (n : Nat) (net : IPNet) : Bool :=
  !net.isV6 && net.base ≤ n && n ≤ net.base + 2 ^ (32 - net.plen) - 1

/-- A structurally valid IPv4 network: prefix within range and network
address aligned (no host bits). -/
def netValid (net : IPNet) : Prop :=
  net.isV6 = false ∧ net.plen ≤ 32 ∧ net.base % 2 ^ (32 - net.plen) = 0

/-- A list of networks covers exactly the inclusive integer range
`[lo, hi]`. -/
def coversRange (l : List IPNet) (lo hi : Nat) : Prop :=
  ∀ n : Nat, (l.any (inNet n)) = true ↔ (lo ≤ n ∧ n ≤ hi)

/-- Whether two addresses are of the same IP version. -/
def addrVersionsMatch : Addr → Addr → Bool
  | .v4 _, .v4 _ => true
  | .v6 _ _, .v6 _ _ => true
  | _, _ => false

/-- A term on which the loop body returns `None` for the whole query:
numeric, or failing all three candidate parses. -/
def termAborts (t : List Char) : Bool :=
  pyIsdigit t ||
    (match ip_address t, ip_network t with
     | .error _, .error _ =>
       if pyCountChar t '-' = 1 then
         match rangeSummarize t with
         | .ok _ => false
         | .error _ => true
       else true
     | _, _ => false)

-- Decidable equality on `Except`, for evaluating concrete runs of the
-- embedded functions.
deriving instance DecidableEq for Except

/-! ### Lemmas about the classification loop -/

/-- `ipaddress.ip_address` only ever raises `ValueError`. -/
theorem ip_address_no_typeError (s : List Char) :
    ip_address s ≠ .error .typeError := by
  unfold ip_address
  cases ipAddressOpt s <;> simp

/-- `ipaddress.ip_network` only ever raises `ValueError`. -/
theorem ip_network_no_typeError (s : List Char) :
    ip_network s ≠ .error .typeError := by
  unfold ip_network
  cases ipNetworkOpt s <;> simp

/-- The loop never lets an exception escape: every parse failure is caught. -/
theorem ipQueryLoop_no_exception (terms : List (List Char))
    (ips : List Addr) (networks : List IPNet) :
    ∃ v, ipQueryLoop terms ips networks = .ok v := by
  induction terms generalizing ips networks with
  | nil => exact ⟨some ⟨ips, networks⟩, rfl⟩
  | cons t rest ih =>
    by_cases hd : pyIsdigit t = true
    · exact ⟨none, by simp [ipQueryLoop, hd]⟩
    · rcases ha : ip_address t with e | a
      · cases e with
        | typeError => exact absurd ha (ip_address_no_typeError t)
        | valueError =>
          rcases hn : ip_network t with e2 | n
          · cases e2 with
            | typeError => exact absurd hn (ip_network_no_typeError t)
            | valueError =>
              by_cases hc : pyCountChar t '-' = 1
              · rcases hr : rangeSummarize t with e3 | ns
                · exact ⟨none, by simp [ipQueryLoop, hd, ha, hn, hc, hr]⟩
                · rcases ih ips (networks ++ ns) with ⟨v, hv⟩
                  exact ⟨v, by simp [ipQueryLoop, hd, ha, hn, hc, hr, hv]⟩
              · exact ⟨none, by simp [ipQueryLoop, hd, ha, hn, hc]⟩
          · rcases ih ips (networks ++ [n]) with ⟨v, hv⟩
            exact ⟨v, by simp [ipQueryLoop, hd, ha, hn, hv]⟩
      · rcases ih (ips ++ [a]) networks with ⟨v, hv⟩
        exact ⟨v, by simp [ipQueryLoop, hd, ha, hv]⟩

/-- If any term aborts, the whole loop returns `None`. -/
theorem ipQueryLoop_abort (terms : List (List Char)) (ips : List Addr)
    (networks : List IPNet) (t : List Char) (hmem : t ∈ terms)
    (habort : termAborts t = true) :
    ipQueryLoop terms ips networks = .ok none := by
  induction terms generalizing ips networks with
  | nil => cases hmem
  | cons a rest ih =>
    by_cases hd : pyIsdigit a = true
    · simp [ipQueryLoop, hd]
    · rcases ha : ip_address a with e | x
      · cases e with
        | typeError => exact absurd ha (ip_address_no_typeError a)
        | valueError =>
          rcases hn : ip_network a with e2 | n
          · cases e2 with
            | typeError => exact absurd hn (ip_network_no_typeError a)
            | valueError =>
              by_cases hc : pyCountChar a '-' = 1
              · rcases hr : rangeSummarize a with e3 | ns
                · simp [ipQueryLoop, hd, ha, hn, hc, hr]
                · rcases List.mem_cons.mp hmem with rfl | hmem2
                  · simp [termAborts, hd, ha, hn, hc, hr] at habort
                  · simp only [ipQueryLoop, hd, ha, hn, hc, hr,
                      Bool.false_eq_true, if_false, if_true]
                    exact ih ips (networks ++ ns) hmem2
              · simp [ipQueryLoop, hd, ha, hn, hc]
          · rcases List.mem_cons.mp hmem with rfl | hmem2
            · simp [termAborts, hd, ha, hn] at habort
            · simp only [ipQueryLoop, hd, ha, hn, Bool.false_eq_true, if_false]
              exact ih ips (networks ++ [n]) hmem2
      · rcases List.mem_cons.mp hmem with rfl | hmem2
        · simp [termAborts, hd, ha] at habort
        · simp only [ipQueryLoop, hd, ha, Bool.false_eq_true, if_false]
          exact ih (ips ++ [x]) networks hmem2

/-- When classification says "not an IP query", no IP filter is ever applied
by `get_search_results` (the annotations may still be added, but the
`FilteredRelation`-based filter is not). -/
theorem noIpFilter_of_classify_none (cfg : AdminCfg) (schema : Schema)
    (s : List Char) (h : classifyQuery s = none) :
    QOp.filterIpsNotNull ∉ (get_search_results cfg schema s).1 := by
  by_cases hip : cfg.searchByIpActions = []
  · have hsec : ipSection cfg s = ([], false, false) := by
      simp [ipSection, hip]
    simp only [get_search_results, hsec]
    split
    · simp
    · split
      · simp
      · split
        · simp
        · split <;> simp
  · have hsec : ipSection cfg s = ([QOp.annotateIps none], false, false) := by
      simp [ipSection, hip, h, get_queryset_with_related_ips]
    simp only [get_search_results, hsec]
    split
    · simp
    · split
      · simp
      · split
        · simp
        · split <;> simp

/-! ### Claims -/

/-- C1: if any comma-separated term of the query is purely numeric, then
`ip_addresses_and_networks_from_query` returns `None` (no exception), and
`get_search_results` never applies the IP-search filter, regardless of the
other terms. -/
theorem C1_numeric_term_never_ip (s t : List Char)
    (hmem : t ∈ pySplitChar ',' s) (hdig : pyIsdigit t = true) :
    ip_addresses_and_networks_from_query s = .ok none ∧
    ∀ (cfg : AdminCfg) (schema : Schema),
      QOp.filterIpsNotNull ∉ (get_search_results cfg schema s).1 := by
  have habort : termAborts t = true := by simp [termAborts, hdig]
  have hnone : ip_addresses_and_networks_from_query s = .ok none :=
    ipQueryLoop_abort _ [] [] t hmem habort
  refine ⟨hnone, fun cfg schema => ?_⟩
  exact noIpFilter_of_classify_none cfg schema s (by simp [classifyQuery, hnone])

/-- Witness for C1 at the query `"1.2.3.4,123"`: the second term is numeric,
the first a valid IP address, and classification still returns `None`. -/
theorem C1_witness :
    ip_addresses_and_networks_from_query (pystr "1.2.3.4,123") = .ok none := by
  have h := C1_numeric_term_never_ip (pystr "1.2.3.4,123") (pystr "123")
    (by decide) (by decide)
  exact h.1

/-- C8: classification never raises: for every input string
`ip_addresses_and_networks_from_query` returns a value (`Some` or `None`),
never an uncaught exception. -/
theorem C8_classification_never_raises (s : List Char) :
    ∃ v, ip_addresses_and_networks_from_query s = .ok v :=
  ipQueryLoop_no_exception (pySplitChar ',' s) [] []

/-- C10: a range term whose first address is strictly greater than its
second makes `summarize_address_range` raise; the exception is caught and
the whole query falls back to free text (`None`) — reversed ranges are
never auto-swapped. Also checked on the concrete input
`"10.0.0.8-10.0.0.5"`. -/
theorem C10_reversed_range_falls_back :
    (∀ (s t s1 s2 : List Char) (a b : Addr),
      t ∈ pySplitChar ',' s →
      ip_address t = .error .valueError →
      ip_network t = .error .valueError →
      pyCountChar t '-' = 1 →
      pySplitChar '-' t = [s1, s2] →
      ip_address (pyStrip s1) = .ok a →
      ip_address (pyStrip s2) = .ok b →
      addrVersionsMatch a b = true →
      addrLt b a = true →
      ip_addresses_and_networks_from_query s = .ok none) ∧
    ip_addresses_and_networks_from_query (pystr "10.0.0.8-10.0.0.5") =
      .ok none := by
  constructor
  · intro s t s1 s2 a b hmem ha hn hc hsplit h1 h2 hv hgt
    have hsum : summarize_address_range a b = .error .valueError := by
      cases a with
      | v4 f =>
        cases b with
        | v4 l =>
          simp only [addrLt, decide_eq_true_eq] at hgt
          simp [summarize_address_range, hgt]
        | v6 l sc => simp [addrVersionsMatch] at hv
      | v6 f sc =>
        cases b with
        | v4 l => simp [addrVersionsMatch] at hv
        | v6 l sc2 =>
          simp only [addrLt, decide_eq_true_eq] at hgt
          simp [summarize_address_range, hgt]
    have hrange : rangeSummarize t = .error .valueError := by
      simp [rangeSummarize, hsplit, h1, h2, hsum]
    have habort : termAborts t = true := by
      by_cases hd : pyIsdigit t = true
      · simp [termAborts, hd]
      · simp [termAborts, hd, ha, hn, hc, hrange]
    exact ipQueryLoop_abort _ [] [] t hmem habort
  · decide

/-- Witness for C10: the reversed range term inside a larger query, with
every hypothesis discharged at concrete values. -/
theorem C10_witness :
    ip_addresses_and_networks_from_query (pystr "10.0.0.8-10.0.0.5,frob") =
      .ok none :=
  C10_reversed_range_falls_back.1 (pystr "10.0.0.8-10.0.0.5,frob")
    (pystr "10.0.0.8-10.0.0.5") (pystr "10.0.0.8") (pystr "10.0.0.5")
    (.v4 167772168) (.v4 167772165) (by decide) (by decide) (by decide)
    (by decide) (by decide) (by decide) (by decide) (by decide) (by decide)

/-- A valid network that contains `10.0.0.5` but not `10.0.0.4` must be the
single-address block at `10.0.0.5` (any larger aligned block containing the
odd address `10.0.0.5` also contains `10.0.0.4`). -/
theorem cover5_base (net : IPNet) (hv : netValid net)
    (hin : inNet 167772165 net = true) (hout : inNet 167772164 net = false) :
    net.base = 167772165 := by
  obtain ⟨hv6, hple, hal⟩ := hv
  simp only [inNet, hv6, Bool.not_false, Bool.true_and, Bool.and_eq_true,
    decide_eq_true_eq] at hin
  set k := 32 - net.plen with hk
  by_cases hk0 : k = 0
  · rw [hk0] at hin; simp at hin; omega
  · exfalso
    have hk1 : 1 ≤ k := Nat.one_le_iff_ne_zero.mpr hk0
    have hdvd2 : (2 : Nat) ∣ net.base :=
      dvd_trans (dvd_pow_self 2 hk0) (Nat.dvd_of_mod_eq_zero hal)
    have h2k : 2 ≤ 2 ^ k := by
      calc (2 : Nat) = 2 ^ 1 := rfl
        _ ≤ 2 ^ k := Nat.pow_le_pow_right (by norm_num) hk1
    obtain ⟨c, hc⟩ := hdvd2
    have hin4 : inNet 167772164 net = true := by
      simp only [inNet, hv6, Bool.not_false, Bool.true_and, Bool.and_eq_true,
        decide_eq_true_eq]
      generalize he : (2 : Nat) ^ k = e at hin h2k
      omega
    rw [hin4] at hout
    exact absurd hout (by simp)

/-- A valid network that contains `10.0.0.8` but not `10.0.0.9` must be the
single-address block at `10.0.0.8` (an aligned block of size at least two
containing the even address `10.0.0.8` also contains `10.0.0.9`). -/
theorem cover8_base (net : IPNet) (hv : netValid net)
    (hin : inNet 167772168 net = true) (hout : inNet 167772169 net = false) :
    net.base = 167772168 := by
  obtain ⟨hv6, hple, hal⟩ := hv
  simp only [inNet, hv6, Bool.not_false, Bool.true_and, Bool.and_eq_true,
    decide_eq_true_eq] at hin
  set k := 32 - net.plen with hk
  by_cases hk0 : k = 0
  · rw [hk0] at hin; simp at hin; omega
  · exfalso
    have hk1 : 1 ≤ k := Nat.one_le_iff_ne_zero.mpr hk0
    have hdvd2 : (2 : Nat) ∣ net.base :=
      dvd_trans (dvd_pow_self 2 hk0) (Nat.dvd_of_mod_eq_zero hal)
    obtain ⟨c, hc⟩ := hdvd2
    have h2d : (2 : Nat) ^ k = 2 * 2 ^ (k - 1) := by
      conv_lhs => rw [show k = (k - 1) + 1 by omega]
      rw [pow_succ']
    have hd1 : 1 ≤ 2 ^ (k - 1) := Nat.one_le_two_pow
    have hin9 : inNet 167772169 net = true := by
      simp only [inNet, hv6, Bool.not_false, Bool.true_and, Bool.and_eq_true,
        decide_eq_true_eq]
      rw [h2d] at hin ⊢
      generalize he : (2 : Nat) ^ (k - 1) = e at hin hd1 ⊢
      omega
    rw [hin9] at hout
    exact absurd hout (by simp)

/-- A valid network that contains `10.0.0.6` but not `10.0.0.4` must start
at `10.0.0.6` (blocks of size four or more containing `10.0.0.6` also
contain `10.0.0.4`; size two forces the even base `10.0.0.6`). -/
theorem cover6_base (net : IPNet) (hv : netValid net)
    (hin : inNet 167772166 net = true) (hout : inNet 167772164 net = false) :
    net.base = 167772166 := by
  obtain ⟨hv6, hple, hal⟩ := hv
  simp only [inNet, hv6, Bool.not_false, Bool.true_and, Bool.and_eq_true,
    decide_eq_true_eq] at hin
  set k := 32 - net.plen with hk
  by_cases hk0 : k = 0
  · rw [hk0] at hin; simp at hin; omega
  · by_cases hk1 : k = 1
    · rw [hk1] at hin
      have hdvd2 : (2 : Nat) ∣ net.base :=
        dvd_trans (dvd_pow_self 2 hk0) (Nat.dvd_of_mod_eq_zero hal)
      obtain ⟨c, hc⟩ := hdvd2
      simp at hin
      omega
    · exfalso
      have hk2 : 2 ≤ k := by omega
      have hdvd4 : (4 : Nat) ∣ net.base :=
        dvd_trans (by simpa using pow_dvd_pow 2 hk2)
          (Nat.dvd_of_mod_eq_zero hal)
      have h4k : 4 ≤ 2 ^ k := by
        calc (4 : Nat) = 2 ^ 2 := rfl
          _ ≤ 2 ^ k := Nat.pow_le_pow_right (by norm_num) hk2
      obtain ⟨c, hc⟩ := hdvd4
      have hin4 : inNet 167772164 net = true := by
        simp only [inNet, hv6, Bool.not_false, Bool.true_and, Bool.and_eq_true,
          decide_eq_true_eq]
        generalize he : (2 : Nat) ^ k = e at hin h4k
        omega
      rw [hin4] at hout
      exact absurd hout (by simp)

/-- A list containing three pairwise distinct elements has length at least
three. -/
theorem three_distinct_le_length {α : Type} [DecidableEq α] (l : List α)
    (a b c : α) (ha : a ∈ l) (hb : b ∈ l) (hc : c ∈ l)
    (hab : a ≠ b) (hac : a ≠ c) (hbc : b ≠ c) : 3 ≤ l.length := by
  have hsub : ({a, b, c} : Finset α) ⊆ l.toFinset := by
    intro x hx
    simp only [Finset.mem_insert, Finset.mem_singleton] at hx
    rcases hx with rfl | rfl | rfl <;> exact List.mem_toFinset.mpr (by assumption)
  have hcard : ({a, b, c} : Finset α).card = 3 := by
    rw [Finset.card_insert_of_not_mem (by simp [hab, hac]),
      Finset.card_insert_of_not_mem (by simp [hbc]), Finset.card_singleton]
  calc 3 = ({a, b, c} : Finset α).card := hcard.symm
    _ ≤ l.toFinset.card := Finset.card_le_card hsub
    _ ≤ l.length := l.toFinset_card_le

/-- Any list of valid networks exactly covering the inclusive range
`10.0.0.5`–`10.0.0.8` has at least three entries: the cover the code
computes is minimal. -/
theorem cover_min_three (l : List IPNet) (hval : ∀ net ∈ l, netValid net)
    (hcov : coversRange l 167772165 167772168) : 3 ≤ l.length := by
  have hmem : ∀ n : Nat, 167772165 ≤ n → n ≤ 167772168 →
      ∃ net ∈ l, inNet n net = true := by
    intro n h1 h2
    have := (hcov n).mpr ⟨h1, h2⟩
    simpa [List.any_eq_true] using this
  have hnot : ∀ n : Nat, (n < 167772165 ∨ 167772168 < n) →
      ∀ net ∈ l, inNet n net = false := by
    intro n hn net hnet
    by_contra hcontra
    have htrue : inNet n net = true := by
      cases h : inNet n net
      · exact absurd h hcontra
      · rfl
    have : (l.any (inNet n)) = true := List.any_eq_true.mpr ⟨net, hnet, htrue⟩
    have := (hcov n).mp this
    omega
  obtain ⟨n5, hn5l, hn5⟩ := hmem 167772165 (by norm_num) (by norm_num)
  obtain ⟨n6, hn6l, hn6⟩ := hmem 167772166 (by norm_num) (by norm_num)
  obtain ⟨n8, hn8l, hn8⟩ := hmem 167772168 (by norm_num) (by norm_num)
  have hb5 : n5.base = 167772165 :=
    cover5_base n5 (hval n5 hn5l) hn5
      (hnot 167772164 (by norm_num) n5 hn5l)
  have hb6 : n6.base = 167772166 :=
    cover6_base n6 (hval n6 hn6l) hn6
      (hnot 167772164 (by norm_num) n6 hn6l)
  have hb8 : n8.base = 167772168 :=
    cover8_base n8 (hval n8 hn8l) hn8
      (hnot 167772169 (by norm_num) n8 hn8l)
  exact three_distinct_le_length l n5 n6 n8 hn5l hn6l hn8l
    (by intro h; rw [h] at hb5; omega)
    (by intro h; rw [h] at hb5; omega)
    (by intro h; rw [h] at hb6; omega)

/-- C2: for a non-numeric term the loop attempts, in order, address parse,
network parse, and (only with exactly one `-`) range summarization — the
first success wins; a term failing all three makes the whole query
non-IP-classified. On `"10.0.0.1,10.0.0.5-10.0.0.8"` the result is the one
literal address `10.0.0.1` plus the blocks `10.0.0.5/32`, `10.0.0.6/31`,
`10.0.0.8/32`, which cover exactly the inclusive range and form a minimal
cover. -/
theorem C2_parse_cascade :
    (∀ (rest : List (List Char)) (ips : List Addr) (networks : List IPNet)
        (t : List Char) (a : Addr),
      pyIsdigit t = false → ip_address t = .ok a →
      ipQueryLoop (t :: rest) ips networks =
        ipQueryLoop rest (ips ++ [a]) networks) ∧
    (∀ (rest : List (List Char)) (ips : List Addr) (networks : List IPNet)
        (t : List Char) (n : IPNet),
      pyIsdigit t = false → ip_address t = .error .valueError →
      ip_network t = .ok n →
      ipQueryLoop (t :: rest) ips networks =
        ipQueryLoop rest ips (networks ++ [n])) ∧
    (∀ (rest : List (List Char)) (ips : List Addr) (networks : List IPNet)
        (t : List Char) (ns : List IPNet),
      pyIsdigit t = false → ip_address t = .error .valueError →
      ip_network t = .error .valueError → pyCountChar t '-' = 1 →
      rangeSummarize t = .ok ns →
      ipQueryLoop (t :: rest) ips networks =
        ipQueryLoop rest ips (networks ++ ns)) ∧
    (∀ (s t : List Char), t ∈ pySplitChar ',' s →
      ip_address t = .error .valueError → ip_network t = .error .valueError →
      (pyCountChar t '-' ≠ 1 ∨ ∃ e, rangeSummarize t = .error e) →
      ip_addresses_and_networks_from_query s = .ok none) ∧
    (ip_addresses_and_networks_from_query (pystr "10.0.0.1,10.0.0.5-10.0.0.8") =
      .ok (some ⟨[.v4 167772161],
        [⟨false, 167772165, 32⟩, ⟨false, 167772166, 31⟩,
         ⟨false, 167772168, 32⟩]⟩)) ∧
    coversRange
      [⟨false, 167772165, 32⟩, ⟨false, 167772166, 31⟩, ⟨false, 167772168, 32⟩]
      167772165 167772168 ∧
    (∀ l : List IPNet, (∀ net ∈ l, netValid net) →
      coversRange l 167772165 167772168 → 3 ≤ l.length) := by
  refine ⟨?_, ?_, ?_, ?_, ?_, ?_, cover_min_three⟩
  · intro rest ips networks t a hd ha
    simp [ipQueryLoop, hd, ha]
  · intro rest ips networks t n hd ha hn
    simp [ipQueryLoop, hd, ha, hn]
  · intro rest ips networks t ns hd ha hn hc hr
    simp [ipQueryLoop, hd, ha, hn, hc, hr]
  · intro s t hmem ha hn hfail
    have habort : termAborts t = true := by
      by_cases hd : pyIsdigit t = true
      · simp [termAborts, hd]
      · rcases hfail with hc | ⟨e, hr⟩
        · simp [termAborts, hd, ha, hn, hc]
        · by_cases hc : pyCountChar t '-' = 1
          · simp [termAborts, hd, ha, hn, hc, hr]
          · simp [termAborts, hd, ha, hn, hc]
    exact ipQueryLoop_abort _ [] [] t hmem habort
  · decide
  · intro n
    simp only [List.any_cons, List.any_nil, inNet, Bool.or_false,
      Bool.not_false, Bool.true_and, Bool.and_eq_true, Bool.or_eq_true,
      decide_eq_true_eq]
    norm_num
    omega

/-- Witness for C2: each cascade step instantiated at a concrete term, and
the minimality bound applied to the concrete cover. -/
theorem C2_witness :
    ipQueryLoop [pystr "10.0.0.1"] [] [] =
      ipQueryLoop [] [Addr.v4 167772161] [] ∧
    ipQueryLoop [pystr "10.0.0.0/31"] [] [] =
      ipQueryLoop [] [] [⟨false, 167772160, 31⟩] ∧
    ipQueryLoop [pystr "10.0.0.5-10.0.0.8"] [] [] =
      ipQueryLoop [] []
        [⟨false, 167772165, 32⟩, ⟨false, 167772166, 31⟩,
         ⟨false, 167772168, 32⟩] ∧
    ip_addresses_and_networks_from_query (pystr "zork") = .ok none ∧
    3 ≤ ([⟨false, 167772165, 32⟩, ⟨false, 167772166, 31⟩,
          ⟨false, 167772168, 32⟩] : List IPNet).length := by
  refine ⟨?_, ?_, ?_, ?_, ?_⟩
  · exact C2_parse_cascade.1 [] [] [] (pystr "10.0.0.1") (.v4 167772161)
      (by decide) (by decide)
  · exact C2_parse_cascade.2.1 [] [] [] (pystr "10.0.0.0/31")
      ⟨false, 167772160, 31⟩ (by decide) (by decide) (by decide)
  · exact C2_parse_cascade.2.2.1 [] [] [] (pystr "10.0.0.5-10.0.0.8")
      [⟨false, 167772165, 32⟩, ⟨false, 167772166, 31⟩, ⟨false, 167772168, 32⟩]
      (by decide) (by decide) (by decide) (by decide) (by decide)
  · exact C2_parse_cascade.2.2.2.1 (pystr "zork") (pystr "zork") (by decide)
      (by decide) (by decide) (Or.inl (by decide))
  · exact C2_parse_cascade.2.2.2.2.2.2
      [⟨false, 167772165, 32⟩, ⟨false, 167772166, 31⟩, ⟨false, 167772168, 32⟩]
      (by intro net hnet; fin_cases hnet <;> norm_num [netValid])
      C2_parse_cascade.2.2.2.2.2.1

/-- Evaluating the OR-fold of range leaves that `buildIpCond` constructs,
for a non-empty accumulator. -/
theorem evalFoldRange (cfg : AdminCfg) (row : IpRow) (nets : List IPNet)
    (acc : QExpr) (hacc : acc ≠ QExpr.empty) :
    evalIpCond row (nets.foldl (fun a n =>
      qOrC a (QExpr.leaf (cfg.accessor ++ pystr "__iplog__ip_address_binary__range")
        (QVal.addrRange (netFirst n) (netLast n)))) acc) =
      (evalIpCond row acc ||
        nets.any (fun n => addrLe (netFirst n) row.addr &&
          addrLe row.addr (netLast n))) ∧
    nets.foldl (fun a n =>
      qOrC a (QExpr.leaf (cfg.accessor ++ pystr "__iplog__ip_address_binary__range")
        (QVal.addrRange (netFirst n) (netLast n)))) acc ≠ QExpr.empty := by
  induction nets generalizing acc with
  | nil => exact ⟨by simp, by simpa using hacc⟩
  | cons n rest ih =>
    rw [List.foldl_cons]
    have hq : qOrC acc (QExpr.leaf
        (cfg.accessor ++ pystr "__iplog__ip_address_binary__range")
        (QVal.addrRange (netFirst n) (netLast n))) =
        QExpr.qor acc (QExpr.leaf
          (cfg.accessor ++ pystr "__iplog__ip_address_binary__range")
          (QVal.addrRange (netFirst n) (netLast n))) := by
      unfold qOrC
      rw [if_neg hacc, if_neg (by intro h; cases h)]
    rw [hq]
    have hih := ih (QExpr.qor acc (QExpr.leaf
      (cfg.accessor ++ pystr "__iplog__ip_address_binary__range")
      (QVal.addrRange (netFirst n) (netLast n)))) (by intro h; cases h)
    refine ⟨?_, hih.2⟩
    rw [hih.1]
    simp [evalIpCond, evalIpLeaf, Bool.or_assoc]

/-- Evaluation of `buildIpCond`: the literal-address membership OR-ed with
the per-network inclusive range tests; and the condition is non-empty as
soon as there is an address or a network. -/
theorem evalBuildIpCond (cfg : AdminCfg) (row : IpRow) (x : IpsNets)
    (hne : x.ips ≠ [] ∨ x.networks ≠ []) :
    evalIpCond row (buildIpCond cfg x) =
      (x.ips.contains row.addr ||
        x.networks.any (fun n => addrLe (netFirst n) row.addr &&
          addrLe row.addr (netLast n))) ∧
    buildIpCond cfg x ≠ QExpr.empty := by
  unfold buildIpCond
  by_cases hips : x.ips = []
  · rcases hne with h | hnets
    · exact absurd hips h
    · rw [if_neg (by simp [hips])]
      cases hn : x.networks with
      | nil => exact absurd hn hnets
      | cons n rest =>
        rw [List.foldl_cons]
        have hq : qOrC QExpr.empty (QExpr.leaf
            (cfg.accessor ++ pystr "__iplog__ip_address_binary__range")
            (QVal.addrRange (netFirst n) (netLast n))) =
            QExpr.leaf (cfg.accessor ++ pystr "__iplog__ip_address_binary__range")
              (QVal.addrRange (netFirst n) (netLast n)) := by
          unfold qOrC
          rw [if_pos rfl]
        rw [hq]
        have hf := evalFoldRange cfg row rest
          (QExpr.leaf (cfg.accessor ++ pystr "__iplog__ip_address_binary__range")
            (QVal.addrRange (netFirst n) (netLast n))) (by intro h; cases h)
        refine ⟨?_, hf.2⟩
        rw [hf.1]
        simp [evalIpCond, evalIpLeaf, hips]
  · rw [if_pos hips]
    have hq : qOrC QExpr.empty (QExpr.leaf
        (cfg.accessor ++ pystr "__iplog__ip_address_binary__in")
        (QVal.addrList x.ips)) =
        QExpr.leaf (cfg.accessor ++ pystr "__iplog__ip_address_binary__in")
          (QVal.addrList x.ips) := by
      unfold qOrC
      rw [if_pos rfl]
    rw [hq]
    have hf := evalFoldRange cfg row x.networks
      (QExpr.leaf (cfg.accessor ++ pystr "__iplog__ip_address_binary__in")
        (QVal.addrList x.ips)) (by intro h; cases h)
    refine ⟨?_, hf.2⟩
    rw [hf.1]
    simp [evalIpCond, evalIpLeaf]

/-- C5 (amended): for an IP-classified query the built predicate is the OR
of (a) membership of the related log's binary address column in the literal
address set and (b) one *inclusive* range test per network between the
network's first and last address (Django `__range` is SQL `BETWEEN`), all
AND-ed with the requirement that the activity's action code is in
`search_by_ip_actions`. -/
theorem C5_ip_predicate (cfg : AdminCfg) (x : IpsNets) (row : IpRow)
    (hne : x.ips ≠ [] ∨ x.networks ≠ []) :
    get_queryset_with_related_ips cfg (some x) =
      ([QOp.annotateIps (some (ipSearchCondition cfg x)),
        QOp.filterIpsNotNull], false) ∧
    evalIpCond row (ipSearchCondition cfg x) =
      ((x.ips.contains row.addr ||
        x.networks.any (fun n => addrLe (netFirst n) row.addr &&
          addrLe row.addr (netLast n))) &&
       cfg.searchByIpActions.contains row.action) := by
  have hb := evalBuildIpCond cfg row x hne
  have hcondeq : ipSearchCondition cfg x =
      QExpr.qand (buildIpCond cfg x)
        (QExpr.leaf (cfg.accessor ++ pystr "__action__in")
          (QVal.natList cfg.searchByIpActions)) := by
    unfold ipSearchCondition qAndC
    rw [if_neg hb.2, if_neg (by intro h; cases h)]
  constructor
  · unfold get_queryset_with_related_ips
    rw [if_pos (by simpa using hb.2)]
  · rw [hcondeq]
    simp only [evalIpCond, evalIpLeaf]
    rw [hb.1]

/-- Witness for C5 at one address plus one network and a matching row. -/
theorem C5_witness :
    get_queryset_with_related_ips
      ⟨[3], pystr "activitylog", [], pystr "pk", 2, pystr "m"⟩
      (some ⟨[Addr.v4 167772161], [⟨false, 167772160, 31⟩]⟩) =
      ([QOp.annotateIps (some (ipSearchCondition
          ⟨[3], pystr "activitylog", [], pystr "pk", 2, pystr "m"⟩
          ⟨[Addr.v4 167772161], [⟨false, 167772160, 31⟩]⟩)),
        QOp.filterIpsNotNull], false) ∧
    evalIpCond ⟨Addr.v4 167772161, 3⟩ (ipSearchCondition
        ⟨[3], pystr "activitylog", [], pystr "pk", 2, pystr "m"⟩
        ⟨[Addr.v4 167772161], [⟨false, 167772160, 31⟩]⟩) = true := by
  have h := C5_ip_predicate
    ⟨[3], pystr "activitylog", [], pystr "pk", 2, pystr "m"⟩
    ⟨[Addr.v4 167772161], [⟨false, 167772160, 31⟩]⟩
    ⟨Addr.v4 167772161, 3⟩ (Or.inl (by simp))
  exact ⟨h.1, by rw [h.2]; decide⟩

/-- Counterexample for C5 as stated: the spec calls the per-network test a
half-open range test, but the code's `__range` lookup is inclusive. At the
network `10.0.0.0/31` and a row holding its last address `10.0.0.1` (with an
allowed action), the code's predicate matches while the half-open reading
does not. -/
theorem C5_counterexample :
    evalIpCond ⟨Addr.v4 167772161, 1⟩ (ipSearchCondition
        ⟨[1], pystr "activitylog", [], pystr "pk", 2, pystr "m"⟩
        ⟨[], [⟨false, 167772160, 31⟩]⟩) = true ∧
    evalIpCondSpecHalfOpen ⟨Addr.v4 167772161, 1⟩ (ipSearchCondition
        ⟨[1], pystr "activitylog", [], pystr "pk", 2, pystr "m"⟩
        ⟨[], [⟨false, 167772160, 31⟩]⟩) = false := by
  decide

/-- When IP search is disabled or the query is not IP-classified, the IP
section only annotates (when enabled) and never takes the early return. -/
theorem ipSection_not_early (cfg : AdminCfg) (s : List Char)
    (h : cfg.searchByIpActions = [] ∨ classifyQuery s = none) :
    ipSection cfg s =
      ((if cfg.searchByIpActions = [] then [] else [QOp.annotateIps none]),
        false, false) := by
  by_cases ha : cfg.searchByIpActions = []
  · simp [ipSection, ha]
  · rcases h with h | h
    · exact absurd h ha
    · simp [ipSection, ha, h, get_queryset_with_related_ips]

/-- The free-text path of `get_search_results`, fully characterized: the
search terms from `searchTermsOf`, one OR of per-field leaves per term,
terms joined by OR exactly when the raw text contains a comma, and the
duplicates flag computed from `lookup_spawns_duplicates` over the
constructed lookups. -/
theorem get_search_results_text (cfg : AdminCfg) (schema : Schema)
    (s : List Char)
    (hnotip : cfg.searchByIpActions = [] ∨ classifyQuery s = none)
    (hfields : cfg.searchFields ≠ [])
    (hterm : s ≠ [])
    (hnotid : ¬(cfg.searchIdField ≠ [] ∧
      cfg.minTerms ≤ (searchTermsOf s).length ∧
      (searchTermsOf s).all pyIsnumeric)) :
    get_search_results cfg schema s =
      ((if cfg.searchByIpActions = [] then [] else [QOp.annotateIps none]) ++
        (if (searchTermsOf s).map (fun bit => reduceQ qOrC
            ((cfg.searchFields.map (construct_search schema cfg.modelName)).map
              (fun lk => QExpr.leaf lk (QVal.textVal bit)))) ≠ [] then
          [QOp.filterQ (reduceQ (if s.contains ',' then qOrC else qAndC)
            ((searchTermsOf s).map (fun bit => reduceQ qOrC
              ((cfg.searchFields.map (construct_search schema cfg.modelName)).map
                (fun lk => QExpr.leaf lk (QVal.textVal bit))))))]
        else []),
        (cfg.searchFields.map (construct_search schema cfg.modelName)).any
          (fun lk => lookup_spawns_duplicates schema (rootMeta cfg schema) lk)) := by
  have hsec := ipSection_not_early cfg s hnotip
  by_cases hf : searchTermsOf s = [] <;>
    by_cases ha : cfg.searchByIpActions = [] <;>
      simp [get_search_results, hsec, hf, ha, hfields, hterm, hnotid] <;>
      intro h1 h2 <;>
      first
      | exact hnotid ⟨h1, by simp [hf, h2], by simp [hf]⟩
      | · have hc : ¬((searchTermsOf s).all pyIsnumeric = true) :=
            fun hc => hnotid ⟨h1, h2, hc⟩
          simpa [List.all_eq_true, Bool.not_eq_true] using hc

/-- A single-character split always yields at least one piece. -/
theorem pySplitCharAux_ne_nil (sep : Char) (s acc : List Char) :
    pySplitCharAux sep s acc ≠ [] := by
  induction s generalizing acc with
  | nil => simp [pySplitCharAux]
  | cons c rest ih =>
    by_cases hc : c = sep
    · simp [pySplitCharAux, hc]
    · simpa [pySplitCharAux, hc] using ih (c :: acc)

/-- C3 (amended): a query containing a comma is split on commas and its
per-term predicates are OR-ed; a query without a comma is split on
whitespace (`str.split(None)`) and its per-term predicates are AND-ed —
so `"alice,bob"` yields the terms `alice`, `bob` joined by OR and
`"alice bob"` yields the terms `alice`, `bob` joined by AND. -/
theorem C3_join_modes :
    (∀ s : List Char, s.contains ',' = true →
      searchTermsOf s = pySplitChar ',' (pyReplaceChar s '*' '%')) ∧
    (∀ s : List Char, s.contains ',' = false →
      searchTermsOf s = pySplitWs (pyReplaceChar s '*' '%')) ∧
    (∀ (cfg : AdminCfg) (schema : Schema) (s : List Char),
      cfg.searchByIpActions = [] ∨ classifyQuery s = none →
      cfg.searchFields ≠ [] → s ≠ [] →
      ¬(cfg.searchIdField ≠ [] ∧
        cfg.minTerms ≤ (searchTermsOf s).length ∧
        (searchTermsOf s).all pyIsnumeric) →
      s.contains ',' = true →
      (get_search_results cfg schema s).1 =
        (if cfg.searchByIpActions = [] then [] else [QOp.annotateIps none]) ++
        [QOp.filterQ (reduceQ qOrC
          ((pySplitChar ',' (pyReplaceChar s '*' '%')).map (fun bit =>
            reduceQ qOrC
              ((cfg.searchFields.map (construct_search schema cfg.modelName)).map
                (fun lk => QExpr.leaf lk (QVal.textVal bit))))))]) ∧
    (∀ (cfg : AdminCfg) (schema : Schema) (s : List Char),
      cfg.searchByIpActions = [] ∨ classifyQuery s = none →
      cfg.searchFields ≠ [] → s ≠ [] →
      ¬(cfg.searchIdField ≠ [] ∧
        cfg.minTerms ≤ (searchTermsOf s).length ∧
        (searchTermsOf s).all pyIsnumeric) →
      s.contains ',' = false →
      pySplitWs (pyReplaceChar s '*' '%') ≠ [] →
      (get_search_results cfg schema s).1 =
        (if cfg.searchByIpActions = [] then [] else [QOp.annotateIps none]) ++
        [QOp.filterQ (reduceQ qAndC
          ((pySplitWs (pyReplaceChar s '*' '%')).map (fun bit =>
            reduceQ qOrC
              ((cfg.searchFields.map (construct_search schema cfg.modelName)).map
                (fun lk => QExpr.leaf lk (QVal.textVal bit))))))]) ∧
    get_search_results
      ⟨[], pystr "activitylog", [pystr "=name"], pystr "pk", 2, pystr "m"⟩
      [] (pystr "alice,bob") =
      ([QOp.filterQ (QExpr.qor
        (QExpr.leaf (pystr "name__iexact") (QVal.textVal (pystr "alice")))
        (QExpr.leaf (pystr "name__iexact") (QVal.textVal (pystr "bob"))))],
       false) ∧
    get_search_results
      ⟨[], pystr "activitylog", [pystr "=name"], pystr "pk", 2, pystr "m"⟩
      [] (pystr "alice bob") =
      ([QOp.filterQ (QExpr.qand
        (QExpr.leaf (pystr "name__iexact") (QVal.textVal (pystr "alice")))
        (QExpr.leaf (pystr "name__iexact") (QVal.textVal (pystr "bob"))))],
       false) := by
  refine ⟨?_, ?_, ?_, ?_, by decide, by decide⟩
  · intro s hc
    unfold searchTermsOf
    rw [hc]
    simp
  · intro s hc
    unfold searchTermsOf
    rw [hc]
    simp
  · intro cfg schema s hnotip hfields hterm hnotid hc
    have h := get_search_results_text cfg schema s hnotip hfields hterm hnotid
    have hterms : searchTermsOf s = pySplitChar ',' (pyReplaceChar s '*' '%') := by
      unfold searchTermsOf
      rw [hc]
      simp
    have hne : pySplitChar ',' (pyReplaceChar s '*' '%') ≠ [] := by
      unfold pySplitChar
      exact pySplitCharAux_ne_nil ',' _ []
    rw [h, hterms, hc]
    simp [hne]
  · intro cfg schema s hnotip hfields hterm hnotid hc hws
    have h := get_search_results_text cfg schema s hnotip hfields hterm hnotid
    have hterms : searchTermsOf s = pySplitWs (pyReplaceChar s '*' '%') := by
      unfold searchTermsOf
      rw [hc]
      simp
    rw [h, hterms, hc]
    simp [hws]

/-- Counterexample for C3 as stated: on `"alice bob"` the code produces two
AND-ed terms, not the single term `"alice bob"` the claim predicts. -/
theorem C3_counterexample :
    (get_search_results
      ⟨[], pystr "activitylog", [pystr "=name"], pystr "pk", 2, pystr "m"⟩
      [] (pystr "alice bob")).1 =
      [QOp.filterQ (QExpr.qand
        (QExpr.leaf (pystr "name__iexact") (QVal.textVal (pystr "alice")))
        (QExpr.leaf (pystr "name__iexact") (QVal.textVal (pystr "bob"))))] ∧
    (get_search_results
      ⟨[], pystr "activitylog", [pystr "=name"], pystr "pk", 2, pystr "m"⟩
      [] (pystr "alice bob")).1 ≠
      [QOp.filterQ (QExpr.leaf (pystr "name__iexact")
        (QVal.textVal (pystr "alice bob")))] := by
  decide

/-- Witness for C3: the two general join-mode conjuncts instantiated at
concrete queries. -/
theorem C3_witness :
    (get_search_results
      ⟨[], pystr "activitylog", [pystr "@note"], pystr "pk", 2, pystr "m"⟩
      [] (pystr "ann,ben")).1 =
      [QOp.filterQ (QExpr.qor
        (QExpr.leaf (pystr "note__icontains") (QVal.textVal (pystr "ann")))
        (QExpr.leaf (pystr "note__icontains") (QVal.textVal (pystr "ben"))))] ∧
    (get_search_results
      ⟨[], pystr "activitylog", [pystr "@note"], pystr "pk", 2, pystr "m"⟩
      [] (pystr "ann ben")).1 =
      [QOp.filterQ (QExpr.qand
        (QExpr.leaf (pystr "note__icontains") (QVal.textVal (pystr "ann")))
        (QExpr.leaf (pystr "note__icontains") (QVal.textVal (pystr "ben"))))] := by
  constructor
  · have h := C3_join_modes.2.2.1
      ⟨[], pystr "activitylog", [pystr "@note"], pystr "pk", 2, pystr "m"⟩
      [] (pystr "ann,ben") (Or.inl rfl) (by decide) (by decide) (by decide)
      (by decide)
    rw [h]
    decide
  · have h := C3_join_modes.2.2.2.1
      ⟨[], pystr "activitylog", [pystr "@note"], pystr "pk", 2, pystr "m"⟩
      [] (pystr "ann ben") (Or.inl rfl) (by decide) (by decide) (by decide)
      (by decide) (by decide)
    rw [h]
    decide

/-- Replacing `*` by `%` commutes with splitting on commas (neither `*` nor
`%` is a comma). -/
theorem pySplitCharAux_replace_comm (s acc : List Char) :
    pySplitCharAux ',' (pyReplaceChar s '*' '%') (pyReplaceChar acc '*' '%') =
      (pySplitCharAux ',' s acc).map (fun t => pyReplaceChar t '*' '%') := by
  induction s generalizing acc with
  | nil =>
    simp [pySplitCharAux, pyReplaceChar]
  | cons c rest ih =>
    by_cases hc : c = ','
    · subst hc
      have hfc : (if (',' : Char) = '*' then '%' else ',') = ',' := by decide
      simp only [pyReplaceChar, List.map_cons] at *
      rw [hfc]
      simp only [pySplitCharAux, if_pos rfl]
      have := ih []
      simp only [pyReplaceChar, List.map_nil] at this
      rw [this]
      simp [pyReplaceChar]
    · have hfc : (if c = '*' then '%' else c) ≠ ',' := by
        by_cases h : c = '*'
        · rw [if_pos h]
          decide
        · rw [if_neg h]
          exact hc
      simp only [pyReplaceChar, List.map_cons]
      simp only [pySplitCharAux, if_neg hfc, if_neg hc]
      have := ih (c :: acc)
      simpa [pyReplaceChar] using this

/-- If a term is purely numeric after the wildcard rewrite, it already was
before (the rewrite can only introduce `%`, which is not a digit). -/
theorem pyIsdigit_of_replace (t : List Char)
    (h : pyIsnumeric (pyReplaceChar t '*' '%') = true) : pyIsdigit t = true := by
  simp only [pyIsnumeric, pyReplaceChar, Bool.and_eq_true, List.all_eq_true,
    Bool.not_eq_true'] at h
  obtain ⟨hne, hall⟩ := h
  simp only [pyIsdigit, Bool.and_eq_true, List.all_eq_true, Bool.not_eq_true']
  constructor
  · cases t with
    | nil => simp at hne
    | cons a b => simp
  · intro c hc
    have hd := hall (if c = '*' then '%' else c) (List.mem_map_of_mem _ hc)
    by_cases h : c = '*'
    · rw [if_pos h] at hd
      exact absurd hd (by decide)
    · rwa [if_neg h] at hd

/-- A comma-separated query whose (rewritten) terms are all numeric is never
IP-classified: its first term is already purely numeric before the rewrite. -/
theorem classify_none_of_all_numeric_comma (s : List Char)
    (hc : s.contains ',' = true)
    (hall : (searchTermsOf s).all pyIsnumeric = true) :
    classifyQuery s = none ∧
    ip_addresses_and_networks_from_query s = .ok none := by
  have hterms : searchTermsOf s = pySplitChar ',' (pyReplaceChar s '*' '%') := by
    unfold searchTermsOf
    rw [hc]
    simp
  have hmap : pySplitChar ',' (pyReplaceChar s '*' '%') =
      (pySplitChar ',' s).map (fun t => pyReplaceChar t '*' '%') := by
    have h := pySplitCharAux_replace_comm s []
    simpa [pySplitChar, pyReplaceChar] using h
  obtain ⟨t, ht⟩ : ∃ t, t ∈ pySplitChar ',' s :=
    List.exists_mem_of_ne_nil _ (pySplitCharAux_ne_nil ',' s [])
  have hft : pyReplaceChar t '*' '%' ∈ searchTermsOf s := by
    rw [hterms, hmap]
    exact List.mem_map_of_mem _ ht
  have hnum : pyIsnumeric (pyReplaceChar t '*' '%') = true := by
    rw [List.all_eq_true] at hall
    exact hall _ hft
  have hdig := pyIsdigit_of_replace t hnum
  have hnone : ip_addresses_and_networks_from_query s = .ok none :=
    ipQueryLoop_abort _ [] [] t ht (by simp [termAborts, hdig])
  exact ⟨by simp [classifyQuery, hnone], hnone⟩

/-- The bulk-id branch of `get_search_results`: under a non-empty id field,
enough terms, and all-numeric terms, the only filter applied is the
`__in` membership test on the id field. -/
theorem get_search_results_id_branch (cfg : AdminCfg) (schema : Schema)
    (s : List Char)
    (hnotip : cfg.searchByIpActions = [] ∨ classifyQuery s = none)
    (hfields : cfg.searchFields ≠ []) (hterm : s ≠ [])
    (hid : cfg.searchIdField ≠ [])
    (hlen : cfg.minTerms ≤ (searchTermsOf s).length)
    (hall : (searchTermsOf s).all pyIsnumeric = true) :
    get_search_results cfg schema s =
      ((if cfg.searchByIpActions = [] then [] else [QOp.annotateIps none]) ++
        [QOp.filterIdIn cfg.searchIdField (searchTermsOf s)], false) := by
  have hsec := ipSection_not_early cfg s hnotip
  unfold get_search_results
  rw [hsec]
  simp [hfields, hterm, hid, hlen, hall]

/-- C4: when every term is numeric and there are at least
`minimum_search_terms_to_search_by_id` (default 2) of them, the search is a
bulk-id `__in` filter — for a comma query this is automatic (such a query
is never IP-classified), and `"123,456"` concretely yields the id filter,
not an IP search and not a free-text filter. -/
theorem C4_numeric_id_search :
    (∀ (cfg : AdminCfg) (schema : Schema) (s : List Char),
      s.contains ',' = true → cfg.searchFields ≠ [] →
      cfg.searchIdField ≠ [] →
      cfg.minTerms ≤ (searchTermsOf s).length →
      (searchTermsOf s).all pyIsnumeric = true →
      classifyQuery s = none ∧
      get_search_results cfg schema s =
        ((if cfg.searchByIpActions = [] then [] else [QOp.annotateIps none]) ++
          [QOp.filterIdIn cfg.searchIdField (searchTermsOf s)], false)) ∧
    (∀ (cfg : AdminCfg) (schema : Schema) (s : List Char),
      cfg.searchByIpActions = [] ∨ classifyQuery s = none →
      cfg.searchFields ≠ [] → s ≠ [] → cfg.searchIdField ≠ [] →
      cfg.minTerms ≤ (searchTermsOf s).length →
      (searchTermsOf s).all pyIsnumeric = true →
      get_search_results cfg schema s =
        ((if cfg.searchByIpActions = [] then [] else [QOp.annotateIps none]) ++
          [QOp.filterIdIn cfg.searchIdField (searchTermsOf s)], false)) ∧
    get_search_results
      ⟨[9], pystr "activitylog", [pystr "=name"], pystr "pk", 2, pystr "m"⟩
      [] (pystr "123,456") =
      ([QOp.annotateIps none,
        QOp.filterIdIn (pystr "pk") [pystr "123", pystr "456"]], false) := by
  refine ⟨?_, ?_, by decide⟩
  · intro cfg schema s hc hfields hid hlen hall
    have hcl := classify_none_of_all_numeric_comma s hc hall
    have hterm : s ≠ [] := by
      intro h
      rw [h] at hc
      simp [List.contains] at hc
    exact ⟨hcl.1,
      get_search_results_id_branch cfg schema s (Or.inr hcl.1) hfields hterm
        hid hlen hall⟩
  · intro cfg schema s hnotip hfields hterm hid hlen hall
    exact get_search_results_id_branch cfg schema s hnotip hfields hterm
      hid hlen hall

/-- Witness for C4 at `"77,88"` with IP search enabled: classification
returns `None` and the result is the bulk-id filter. -/
theorem C4_witness :
    classifyQuery (pystr "77,88") = none ∧
    get_search_results
      ⟨[4], pystr "activitylog", [pystr "=name"], pystr "pk", 2, pystr "m"⟩
      [] (pystr "77,88") =
      ([QOp.annotateIps none,
        QOp.filterIdIn (pystr "pk") [pystr "77", pystr "88"]], false) := by
  have h := C4_numeric_id_search.1
    ⟨[4], pystr "activitylog", [pystr "=name"], pystr "pk", 2, pystr "m"⟩
    [] (pystr "77,88") (by decide) (by decide) (by decide) (by decide)
    (by decide)
  exact ⟨h.1, by rw [h.2]; decide⟩

/-- `get_queryset_with_related_ips` always reports "no duplicates". -/
theorem get_queryset_with_related_ips_flag (cfg : AdminCfg)
    (x : Option IpsNets) : (get_queryset_with_related_ips cfg x).2 = false := by
  unfold get_queryset_with_related_ips
  split
  · rfl
  · rename_i xx
    by_cases h : buildIpCond cfg xx = QExpr.empty <;> simp [h]

/-- C6: the duplicates flag per search mode — an IP-classified search always
returns `False`; a free-text search returns exactly "some constructed lookup
spawns duplicates", where our `lookup_spawns_duplicates` forces `True` when
a path segment is a translation field. -/
theorem C6_duplicates_flag :
    (∀ (cfg : AdminCfg) (schema : Schema) (s : List Char) (x : IpsNets),
      cfg.searchByIpActions ≠ [] → classifyQuery s = some x →
      (get_search_results cfg schema s).2 = false) ∧
    (∀ (cfg : AdminCfg) (schema : Schema) (s : List Char),
      cfg.searchByIpActions = [] ∨ classifyQuery s = none →
      cfg.searchFields ≠ [] → s ≠ [] →
      ¬(cfg.searchIdField ≠ [] ∧
        cfg.minTerms ≤ (searchTermsOf s).length ∧
        (searchTermsOf s).all pyIsnumeric) →
      (get_search_results cfg schema s).2 =
        (cfg.searchFields.map (construct_search schema cfg.modelName)).any
          (fun lk => lookup_spawns_duplicates schema (rootMeta cfg schema) lk)) ∧
    (∀ (schema : Schema) (opts : ModelMeta) (path : List Char),
      ((splitLookupSep path).any (fun p =>
        p == pystr "localized_string" ||
        p == pystr "localized_string_clean")) = true →
      lookup_spawns_duplicates schema opts path = true) := by
  refine ⟨?_, ?_, ?_⟩
  · intro cfg schema s x hip hcl
    have hflag := get_queryset_with_related_ips_flag cfg (some x)
    simp [get_search_results, ipSection, hip, hcl, hflag]
  · intro cfg schema s hnotip hfields hterm hnotid
    rw [get_search_results_text cfg schema s hnotip hfields hterm hnotid]
  · intro schema opts path h
    simp [lookup_spawns_duplicates, h]

/-- Witness for C6: an IP query reports no duplicates; a free-text search
over an exact-lookup field reports none either; a translation-field path
always spawns duplicates. -/
theorem C6_witness :
    (get_search_results
      ⟨[2], pystr "activitylog", [pystr "=name"], pystr "pk", 2, pystr "m"⟩
      [] (pystr "1.2.3.4")).2 = false ∧
    (get_search_results
      ⟨[], pystr "activitylog", [pystr "=name"], pystr "pk", 2, pystr "m"⟩
      [] (pystr "carol")).2 = false ∧
    lookup_spawns_duplicates [] defaultMeta
      (pystr "translations__localized_string__icontains") = true := by
  refine ⟨?_, ?_, ?_⟩
  · exact C6_duplicates_flag.1
      ⟨[2], pystr "activitylog", [pystr "=name"], pystr "pk", 2, pystr "m"⟩
      [] (pystr "1.2.3.4") ⟨[Addr.v4 16909060], []⟩ (by decide) (by decide)
  · have h := C6_duplicates_flag.2.1
      ⟨[], pystr "activitylog", [pystr "=name"], pystr "pk", 2, pystr "m"⟩
      [] (pystr "carol") (Or.inl rfl) (by decide) (by decide) (by decide)
    rw [h]
    decide
  · exact C6_duplicates_flag.2.2 [] defaultMeta
      (pystr "translations__localized_string__icontains") (by decide)

/-- C7: lookup construction — `^`/`=`/`@` sigils map to
`istartswith`/`iexact`/`icontains`; a final path segment that is not a field
but is a valid lookup on the previous field keeps the spec as-is; a path
exhausted without a match defaults to `icontains`; and the wildcard `*` is
rewritten to `%` before the text is split into terms. -/
theorem C7_construct_search :
    (∀ (schema : Schema) (root f : List Char),
      construct_search schema root ('^' :: f) = f ++ pystr "__istartswith") ∧
    (∀ (schema : Schema) (root f : List Char),
      construct_search schema root ('=' :: f) = f ++ pystr "__iexact") ∧
    (∀ (schema : Schema) (root f : List Char),
      construct_search schema root ('@' :: f) = f ++ pystr "__icontains") ∧
    (∀ (schema : Schema) (opts : ModelMeta) (pf : FieldDef)
        (f lastPart : List Char),
      (lastPart == pystr "pk") = false →
      getFieldM opts lastPart = none →
      pf.lookups.contains lastPart = true →
      csWalk schema opts (some pf) f [lastPart] = f) ∧
    (∀ (schema : Schema) (opts : ModelMeta) (pf : Option FieldDef)
        (f : List Char),
      csWalk schema opts pf f [] = f ++ pystr "__icontains") ∧
    (∀ s : List Char, searchTermsOf s =
      if s.contains ',' then pySplitChar ',' (pyReplaceChar s '*' '%')
      else pySplitWs (pyReplaceChar s '*' '%')) ∧
    get_search_results
      ⟨[], pystr "activitylog", [pystr "@note"], pystr "pk", 2, pystr "m"⟩
      [] (pystr "al*ce") =
      ([QOp.filterQ (QExpr.leaf (pystr "note__icontains")
        (QVal.textVal (pystr "al%ce")))], false) := by
  refine ⟨?_, ?_, ?_, ?_, ?_, ?_, by decide⟩
  · intro schema root f
    rfl
  · intro schema root f
    rfl
  · intro schema root f
    rfl
  · intro schema opts pf f lastPart hpk hfield hcontains
    simp only [csWalk, hpk, Bool.false_eq_true, if_false, hfield, hcontains,
      if_true]
  · intro schema opts pf f
    rfl
  · intro s
    rfl

/-- Witness for C7: the sigil rules and walk rules applied at concrete
field specs. -/
theorem C7_witness :
    construct_search [] (pystr "m") (pystr "^email") =
      pystr "email__istartswith" ∧
    construct_search [] (pystr "m") (pystr "=guid") = pystr "guid__iexact" ∧
    construct_search [] (pystr "m") (pystr "@body") = pystr "body__icontains" ∧
    csWalk [] defaultMeta
      (some ⟨pystr "user", true, pystr "u", false, [pystr "in"]⟩)
      (pystr "user__in") [pystr "in"] = pystr "user__in" ∧
    csWalk [] defaultMeta none (pystr "name") [] = pystr "name__icontains" ∧
    searchTermsOf (pystr "al*ce") = [pystr "al%ce"] := by
  refine ⟨?_, ?_, ?_, ?_, ?_, ?_⟩
  · exact C7_construct_search.1 [] (pystr "m") (pystr "email")
  · exact C7_construct_search.2.1 [] (pystr "m") (pystr "guid")
  · exact C7_construct_search.2.2.1 [] (pystr "m") (pystr "body")
  · exact C7_construct_search.2.2.2.1 [] defaultMeta
      ⟨pystr "user", true, pystr "u", false, [pystr "in"]⟩
      (pystr "user__in") (pystr "in") (by decide) (by decide) (by decide)
  · exact C7_construct_search.2.2.2.2.1 [] defaultMeta none (pystr "name")
  · rw [C7_construct_search.2.2.2.2.2.1 (pystr "al*ce")]
    decide

/-- C9 (amended): with an empty search term no filtering is ever applied
(only the IP annotations when IP search is configured) and the duplicates
flag is `False`; with no configured search fields the same holds provided
the query does not trigger the IP search (the IP branch runs before the
search-fields guard). -/
theorem C9_empty_search_noop :
    (∀ (cfg : AdminCfg) (schema : Schema),
      get_search_results cfg schema [] =
        ((if cfg.searchByIpActions = [] then [] else [QOp.annotateIps none]),
          false) ∧
      ∀ op ∈ (get_search_results cfg schema []).1, op.filtersRows = false) ∧
    (∀ (cfg : AdminCfg) (schema : Schema) (s : List Char),
      cfg.searchFields = [] →
      (cfg.searchByIpActions = [] ∨ classifyQuery s = none) →
      get_search_results cfg schema s =
        ((if cfg.searchByIpActions = [] then [] else [QOp.annotateIps none]),
          false) ∧
      ∀ op ∈ (get_search_results cfg schema s).1, op.filtersRows = false) := by
  constructor
  · intro cfg schema
    have hcl : classifyQuery ([] : List Char) = none := by decide
    have hsec := ipSection_not_early cfg [] (Or.inr hcl)
    have heq : get_search_results cfg schema [] =
        ((if cfg.searchByIpActions = [] then []
          else [QOp.annotateIps none]), false) := by
      unfold get_search_results
      rw [hsec]
      simp
    refine ⟨heq, ?_⟩
    rw [heq]
    by_cases ha : cfg.searchByIpActions = [] <;> simp [ha, QOp.filtersRows]
  · intro cfg schema s hfe hnotip
    have hsec := ipSection_not_early cfg s hnotip
    have heq : get_search_results cfg schema s =
        ((if cfg.searchByIpActions = [] then []
          else [QOp.annotateIps none]), false) := by
      unfold get_search_results
      rw [hsec]
      simp [hfe]
    refine ⟨heq, ?_⟩
    rw [heq]
    by_cases ha : cfg.searchByIpActions = [] <;> simp [ha, QOp.filtersRows]

/-- Counterexample for C9 as stated: with no configured search fields but IP
search enabled, an IP query is still filtered (the IP branch runs before the
"nothing to do" guard), so "no search fields implies no filtering" is false. -/
theorem C9_counterexample :
    QOp.filterIpsNotNull ∈ (get_search_results
      ⟨[7], pystr "activitylog", [], pystr "pk", 2, pystr "m"⟩
      [] (pystr "1.2.3.4")).1 := by
  decide

/-- Witness for C9: the amended statement instantiated at a configuration
with IP search enabled and an empty search term, and at a configuration with
no search fields and a non-IP query. -/
theorem C9_witness :
    get_search_results
      ⟨[5], pystr "activitylog", [pystr "=name"], pystr "pk", 2, pystr "m"⟩
      [] [] = ([QOp.annotateIps none], false) ∧
    get_search_results
      ⟨[5], pystr "activitylog", [], pystr "pk", 2, pystr "m"⟩
      [] (pystr "dave") = ([QOp.annotateIps none], false) := by
  constructor
  · exact (C9_empty_search_noop.1
      ⟨[5], pystr "activitylog", [pystr "=name"], pystr "pk", 2, pystr "m"⟩
      []).1
  · exact ((C9_empty_search_noop.2
      ⟨[5], pystr "activitylog", [], pystr "pk", 2, pystr "m"⟩
      [] (pystr "dave") rfl (Or.inr (by decide))).1)
